import Mathlib

/-!
Verification development for the `spz_rs` Gaussian-splat decoder
(`src/lib.rs`).  The Rust code is shallowly embedded: bytes are `Nat`
(with `< 256` bounds stated where relevant), byte streams are `List Nat`,
machine floats are modelled by `F32` below (exact rationals for the values
the codecs produce, explicit constructors for the IEEE special values, and
symbolic constructors for square roots and logarithms of rationals, which
are the only transcendental operations the code performs).  Fallible Rust
operations (slice indexing, `copy_from_slice`, `read_exact`) are modelled
with `Option`/`Except`.
-/

namespace Spz

/-- Model of an `f32` value: a finite rational, one of the IEEE special
values, or a symbolic square root / natural logarithm of a rational
(`sqrtOf q` is only built with `0 < q`, `logOf q` only with `0 < q`). -/
inductive F32 where
  | fin : ℚ → F32
  | posInf : F32
  | negInf : F32
  | nan : F32
  | sqrtOf : ℚ → F32
  | logOf : ℚ → F32
  deriving DecidableEq, Repr

/-- IEEE `sqrt` of a finite rational: `NaN` on negative input, exact `0`
on `0`, symbolic otherwise. -/
def f32sqrt (t : ℚ) : F32 :=
  if t < 0 then F32.nan
  else if t = 0 then F32.fin 0
  else F32.sqrtOf t

/-- Rust `f32::max(v, 0.0)`: NaN-ignoring maximum, so a NaN argument
yields the other operand `0.0`. -/
def f32maxZero : F32 → F32
  | F32.nan => F32.fin 0
  | F32.fin q => F32.fin (max q 0)
  | v => v

/-- The modelled value is a non-negative float (NaN is not). -/
def F32.nonneg : F32 → Prop
  | F32.fin q => 0 ≤ q
  | F32.posInf => True
  | F32.negInf => False
  | F32.nan => False
  | F32.sqrtOf _ => True
  | F32.logOf _ => False

/-- `const FLAG_ANTIALIASED: u8 = 0x1;` -/
def FLAG_ANTIALIASED : Nat := 0x1

/-- `const COLOR_SCALE: f32 = 0.15;` -/
def COLOR_SCALE : ℚ := 0.15

/-- `fn dim_for_degree(degree: usize) -> usize`.  The unsupported arm
prints a diagnostic on stderr and returns `0`; the diagnostic is a side
effect outside the model, the returned value is `0`. -/
def dim_for_degree (degree : Nat) : Nat :=
  match degree with
  | 0 => 0
  | 1 => 3
  | 2 => 8
  | 3 => 15
  | _ => 0

/-- `fn half_to_f32(h: u16) -> f32`. -/
def half_to_f32 (h : Nat) : F32 :=
  let sgn := (h >>> 15) &&& 0x1
  let exponent := (h >>> 10) &&& 0x1f
  let mantissa := h &&& 0x3ff
  let sign_mul : ℚ := if sgn = 1 then -1 else 1
  if exponent = 0 then
    F32.fin (sign_mul * (2 : ℚ) ^ (-14 : ℤ) * (mantissa : ℚ) / 1024)
  else if exponent = 31 then
    if mantissa = 0 then
      (if sgn = 1 then F32.negInf else F32.posInf)
    else
      F32.nan
  else
    F32.fin (sign_mul * (2 : ℚ) ^ ((exponent : ℤ) - 15) * (1 + (mantissa : ℚ) / 1024))

/-- `fn unquantize_scale(x: u8) -> f32`. -/
def unquantize_scale (x : Nat) : ℚ :=
  (x : ℚ) / 16 - 10

/-- `fn inv_sigmoid(x: f32) -> f32`, i.e. `(x / (1.0 - x)).ln()` with IEEE
semantics: division by zero gives a signed infinity (NaN for `0/0`),
`ln` of `+inf` is `+inf`, of `0` is `-inf`, of a negative value is NaN. -/
def inv_sigmoid (x : ℚ) : F32 :=
  if 1 - x = 0 then
    (if 0 < x then F32.posInf else F32.nan)
  else
    let r := x / (1 - x)
    if r < 0 then F32.nan
    else if r = 0 then F32.negInf
    else F32.logOf r

/-- `fn unquantize_alpha(x: u8) -> f32`. -/
def unquantize_alpha (x : Nat) : F32 :=
  inv_sigmoid ((x : ℚ) / 255)

/-- `fn unquantize_sh(x: u8) -> f32`. -/
def unquantize_sh (x : Nat) : ℚ :=
  ((x : ℚ) - 128) / 128

/-- `struct PackedGaussian` (all fields are byte arrays; `position` has 9
bytes, `rotation`/`scale`/`color` 3 bytes, `sh_r`/`sh_g`/`sh_b` 15). -/
structure PackedGaussian where
  position : List Nat
  rotation : List Nat
  scale : List Nat
  color : List Nat
  alpha : Nat
  sh_r : List Nat
  sh_g : List Nat
  sh_b : List Nat
  deriving DecidableEq, Repr

/-- `struct UnpackedGaussian`.  `rotation` is stored `[w, x, y, z]`. -/
structure UnpackedGaussian where
  position : List F32
  rotation : List F32
  scale : List ℚ
  color : List ℚ
  alpha : F32
  sh_r : List ℚ
  sh_g : List ℚ
  sh_b : List ℚ
  deriving DecidableEq, Repr

/-- Reinterpret the low 32 bits of a natural number as a two's-complement
`i32` value. -/
def toI32 (v : Nat) : Int :=
  if v % 2 ^ 32 < 2 ^ 31 then ((v % 2 ^ 32 : Nat) : Int)
  else ((v % 2 ^ 32 : Nat) : Int) - 2 ^ 32

/-- The sign-extension step of the fixed-point decoder:
`fixed32 |= if fixed32 & 0x800000 != 0 { 0xff000000u32 as i32 } else { 0 }`
applied to the assembled 24-bit value. -/
def signExtend24 (v : Nat) : Int :=
  if v &&& 0x800000 ≠ 0 then toI32 (v ||| 0xff000000) else (v : Int)

/-- `(1 << fractional_bits)` as an `i32`, with release-mode (masked)
shift semantics: the shift amount is reduced mod 32. -/
def shl1_i32 (fractional_bits : Nat) : Int :=
  toI32 (1 <<< (fractional_bits % 32))

/-- `let scale = 1.0 / (1 << fractional_bits) as f32;` — the `as f32`
conversion and the division are exact here (the operand is `±2^k`). -/
def posScale (fractional_bits : Nat) : ℚ :=
  1 / (shl1_i32 fractional_bits : ℚ)

/-- `impl PackedGaussian { pub fn unpack(&self, uses_float16, fractional_bits) }`. -/
def PackedGaussian.unpack (p : PackedGaussian) (uses_float16 : Bool)
    (fractional_bits : Nat) : UnpackedGaussian :=
  let position : List F32 :=
    if uses_float16 then
      (List.range 3).map (fun i => half_to_f32 (p.position.getD (i * 2) 0))
    else
      (List.range 3).map (fun i =>
        let fixed32 := signExtend24
          (p.position.getD (i * 3) 0
            ||| (p.position.getD (i * 3 + 1) 0 <<< 8)
            ||| (p.position.getD (i * 3 + 2) 0 <<< 16))
        F32.fin ((fixed32 : ℚ) * posScale fractional_bits))
  let scale : List ℚ := (List.range 3).map (fun i => unquantize_scale (p.scale.getD i 0))
  let xyz : List ℚ := p.rotation.map (fun r => (r : ℚ) / 127.5 - 1)
  let rotation : List F32 :=
    f32maxZero (f32sqrt (1 - (xyz.map (fun v => v * v)).sum)) :: xyz.map F32.fin
  let alpha := unquantize_alpha p.alpha
  let color : List ℚ :=
    (List.range 3).map (fun i => ((p.color.getD i 0 : ℚ) / 255 - 0.5) / COLOR_SCALE)
  { position := position, rotation := rotation, scale := scale, color := color,
    alpha := alpha,
    sh_r := (List.range 15).map (fun i => unquantize_sh (p.sh_r.getD i 0)),
    sh_g := (List.range 15).map (fun i => unquantize_sh (p.sh_g.getD i 0)),
    sh_b := (List.range 15).map (fun i => unquantize_sh (p.sh_b.getD i 0)) }

/-- `struct PackedGaussiansHeader` (`repr(C)`, 16 bytes, little-endian
fields on the reference platform). -/
structure PackedGaussiansHeader where
  magic : Nat
  version : Nat
  num_points : Nat
  sh_degree : Nat
  fractional_bits : Nat
  flags : Nat
  reserved : Nat
  deriving DecidableEq, Repr

/-- `impl Default for PackedGaussiansHeader`. -/
def PackedGaussiansHeader.default : PackedGaussiansHeader :=
  { magic := 0x5053474e, version := 2, num_points := 0,
    sh_degree := 0, fractional_bits := 0, flags := 0, reserved := 0 }

/-- Little-endian 32-bit read at offset `o` of a byte list. -/
def le32 (b : List Nat) (o : Nat) : Nat :=
  b.getD o 0 + b.getD (o + 1) 0 * 256 + b.getD (o + 2) 0 * 65536
    + b.getD (o + 3) 0 * 16777216

/-- The `mem::transmute` of the 16 header bytes into
`PackedGaussiansHeader` (little-endian `repr(C)` layout: `u32` fields at
offsets 0, 4, 8 and `u8` fields at 12, 13, 14, 15). -/
def parseHeader (b : List Nat) : PackedGaussiansHeader :=
  { magic := le32 b 0, version := le32 b 4, num_points := le32 b 8,
    sh_degree := b.getD 12 0, fractional_bits := b.getD 13 0,
    flags := b.getD 14 0, reserved := b.getD 15 0 }

/-- `struct PackedGaussians`. -/
structure PackedGaussians where
  num_points : Nat
  sh_degree : Nat
  fractional_bits : Nat
  antialiased : Bool
  positions : List Nat
  scales : List Nat
  rotations : List Nat
  alphas : List Nat
  colors : List Nat
  sh : List Nat
  deriving DecidableEq, Repr

/-- `pub fn uses_float16(&self) -> bool`. -/
def PackedGaussians.uses_float16 (g : PackedGaussians) : Bool :=
  g.positions.length == g.num_points * 3 * 2

/-- Rust slice extraction `&xs[start..start+len]`; `none` models the
out-of-bounds panic. -/
def sliceOpt (xs : List Nat) (start len : Nat) : Option (List Nat) :=
  if start + len ≤ xs.length then some ((xs.drop start).take len) else none

/-- `pub fn at(&self, i: usize) -> PackedGaussian` (named `atPoint` since
`at` is a Lean keyword).  `none` models the panics of slice indexing and
of `copy_from_slice` (which requires source and destination lengths to be
equal: the destination `position` array always has 9 bytes). -/
def PackedGaussians.atPoint (g : PackedGaussians) (i : Nat) : Option PackedGaussian := do
  let position_bits := if g.uses_float16 then 6 else 9
  let posSlice ← sliceOpt g.positions (i * position_bits) position_bits
  let position ← if posSlice.length = 9 then some posSlice else none
  let scale ← sliceOpt g.scales (i * 3) 3
  let rotation ← sliceOpt g.rotations (i * 3) 3
  let color ← sliceOpt g.colors (i * 3) 3
  let alpha ← g.alphas[i]?
  let shDim := dim_for_degree g.sh_degree
  let sh_start := i * shDim * 3
  let sh_r ← (List.range 15).mapM
    (fun j => if j < shDim then g.sh[sh_start + j * 3]? else some 128)
  let sh_g ← (List.range 15).mapM
    (fun j => if j < shDim then g.sh[sh_start + j * 3 + 1]? else some 128)
  let sh_b ← (List.range 15).mapM
    (fun j => if j < shDim then g.sh[sh_start + j * 3 + 2]? else some 128)
  some { position := position, rotation := rotation, scale := scale,
         color := color, alpha := alpha, sh_r := sh_r, sh_g := sh_g, sh_b := sh_b }

/-- `pub fn unpack(&self, i: usize) -> UnpackedGaussian` on
`PackedGaussians`. -/
def PackedGaussians.unpack (g : PackedGaussians) (i : Nat) : Option UnpackedGaussian :=
  (g.atPoint i).map (fun p => p.unpack g.uses_float16 g.fractional_bits)

/-- Errors of the loader: `ioTruncated` models the `io::Error` a failing
`read_exact` returns, the other two the `InvalidData` errors built for a
bad magic ("Header not found") and an unsupported version. -/
inductive LoadError where
  | ioTruncated : LoadError
  | badMagic : LoadError
  | unsupportedVersion : LoadError
  deriving DecidableEq, Repr

/-- `read_exact` on a byte stream: consume exactly `n` bytes or fail. -/
def rd (n : Nat) (s : List Nat) : Except LoadError (List Nat × List Nat) :=
  if n ≤ s.length then .ok (s.take n, s.drop n) else .error .ioTruncated

/-- `pub fn load_packed_gaussians_from_decompressed_buffer`.  The reader
state is made explicit: the result carries the unconsumed rest of the
stream. -/
def load_packed_gaussians_from_decompressed_buffer (s : List Nat) :
    Except LoadError (PackedGaussians × List Nat) :=
  match rd 16 s with
  | .error e => .error e
  | .ok (hb, s1) =>
    let header := parseHeader hb
    if header.magic ≠ PackedGaussiansHeader.default.magic then .error .badMagic
    else if header.version < 1 ∨ 2 < header.version then .error .unsupportedVersion
    else
      let num_points := header.num_points
      let sh_dim := dim_for_degree header.sh_degree
      let uses_float16 := header.version == 1
      match rd (num_points * 3 * (if uses_float16 then 2 else 3)) s1 with
      | .error e => .error e
      | .ok (positions, s2) =>
        match rd num_points s2 with
        | .error e => .error e
        | .ok (alphas, s3) =>
          match rd (num_points * 3) s3 with
          | .error e => .error e
          | .ok (colors, s4) =>
            match rd (num_points * 3) s4 with
            | .error e => .error e
            | .ok (scales, s5) =>
              match rd (num_points * 3) s5 with
              | .error e => .error e
              | .ok (rotations, s6) =>
                match rd (num_points * sh_dim * 3) s6 with
                | .error e => .error e
                | .ok (sh, s7) =>
                  .ok ({ num_points := num_points,
                         sh_degree := header.sh_degree,
                         fractional_bits := header.fractional_bits,
                         antialiased := (header.flags &&& FLAG_ANTIALIASED) != 0,
                         positions := positions, scales := scales,
                         rotations := rotations, alphas := alphas,
                         colors := colors, sh := sh }, s7)

/-! Specification-side definitions (restating §4.4/§6 of the spec, to be
compared with the loader above). -/

/-- Position stride per point: 6 bytes for version 1 (half floats), 9 for
version 2 (24-bit fixed point). -/
def positionBytesPerPoint (h : PackedGaussiansHeader) : Nat :=
  if h.version = 1 then 6 else 9

/-- Total body bytes after the 16-byte header, in the spec's read order:
positions, alphas, colors, scales, rotations, SH. -/
def totalBodyBytes (h : PackedGaussiansHeader) : Nat :=
  h.num_points * positionBytesPerPoint h + h.num_points + h.num_points * 3
    + h.num_points * 3 + h.num_points * 3
    + h.num_points * dim_for_degree h.sh_degree * 3

/-- The `len` bytes of `s` starting at offset `off`. -/
def sliceAt (s : List Nat) (off len : Nat) : List Nat :=
  (s.drop off).take len

/-- The decoded result the spec's Buffer Layout Planner prescribes: each
buffer is the exact slice of the stream at its sequential offset. -/
def gaussiansOf (h : PackedGaussiansHeader) (s : List Nat) : PackedGaussians :=
  let n := h.num_points
  let pb := n * positionBytesPerPoint h
  { num_points := n, sh_degree := h.sh_degree,
    fractional_bits := h.fractional_bits,
    antialiased := (h.flags &&& FLAG_ANTIALIASED) != 0,
    positions := sliceAt s 16 pb,
    alphas := sliceAt s (16 + pb) n,
    colors := sliceAt s (16 + pb + n) (n * 3),
    scales := sliceAt s (16 + pb + n + n * 3) (n * 3),
    rotations := sliceAt s (16 + pb + n + n * 3 + n * 3) (n * 3),
    sh := sliceAt s (16 + pb + n + n * 3 + n * 3 + n * 3)
            (n * dim_for_degree h.sh_degree * 3) }

/-- Little-endian 24-bit two's-complement reading of an assembled 24-bit
value, as the spec describes the fixed-point position encoding. -/
def twosComplement24 (v : Nat) : Int :=
  if v < 0x800000 then (v : Int) else (v : Int) - 0x1000000

/-- The fixed-point position formula of the spec: the three axis bytes
assembled little-endian, read as a 24-bit two's-complement integer, scaled
by `2^-fractional_bits`. -/
def fixedAxisSpec (b0 b1 b2 fb : Nat) : ℚ :=
  (twosComplement24 (b0 + b1 * 256 + b2 * 65536) : ℚ) * ((2 : ℚ) ^ fb)⁻¹

/-! Concrete inputs used by the counterexamples and witnesses. -/

/-- A complete version-1 (half-float) stream: one point, SH degree 0.
Each position axis stores the half-float bit pattern `0x3C00` (= 1.0)
little-endian. -/
def v1Stream : List Nat :=
  [0x4e, 0x47, 0x53, 0x50, 1, 0, 0, 0, 1, 0, 0, 0, 0, 0, 0, 0] ++
  [0, 60, 0, 60, 0, 60] ++ [128] ++ [128, 128, 128] ++
  [160, 160, 160] ++ [127, 127, 127]

/-- A complete version-2 (fixed-point) stream: one point, SH degree 0,
`fractional_bits = 12`, position axis 0 stores the integer 4096. -/
def v2Stream : List Nat :=
  [0x4e, 0x47, 0x53, 0x50, 2, 0, 0, 0, 1, 0, 0, 0, 0, 12, 0, 0] ++
  [0, 16, 0, 0, 0, 0, 0, 0, 0] ++ [128] ++ [128, 128, 128] ++
  [160, 160, 160] ++ [127, 127, 127]

/-- Like `v2Stream` but with the unsupported SH degree 4 in the header. -/
def shDeg4Stream : List Nat :=
  [0x4e, 0x47, 0x53, 0x50, 2, 0, 0, 0, 1, 0, 0, 0, 4, 12, 0, 0] ++
  [0, 16, 0, 0, 0, 0, 0, 0, 0] ++ [128] ++ [128, 128, 128] ++
  [160, 160, 160] ++ [127, 127, 127]

/-- A version-2 stream with zero points and `fractional_bits = 255`. -/
def fb255Stream : List Nat :=
  [0x4e, 0x47, 0x53, 0x50, 2, 0, 0, 0, 0, 0, 0, 0, 0, 255, 0, 0]

/-- A 16-byte stream whose magic field is zero. -/
def zeroStream : List Nat := List.replicate 16 0

/-- A packed point as a version-1 file stores it: each position axis is
the two bytes `0x00 0x3C`, i.e. the half-float 1.0 little-endian. -/
def halfPointV1 : PackedGaussian :=
  { position := [0, 60, 0, 60, 0, 60, 0, 0, 0], rotation := [127, 127, 127],
    scale := [160, 160, 160], color := [128, 128, 128], alpha := 128,
    sh_r := List.replicate 15 128, sh_g := List.replicate 15 128,
    sh_b := List.replicate 15 128 }

/-- A packed point whose first fixed-point axis stores the integer 4096. -/
def fixedPoint4096 : PackedGaussian :=
  { position := [0, 16, 0, 0, 0, 0, 0, 0, 0], rotation := [127, 127, 127],
    scale := [160, 160, 160], color := [128, 128, 128], alpha := 128,
    sh_r := List.replicate 15 128, sh_g := List.replicate 15 128,
    sh_b := List.replicate 15 128 }

/-- A packed point with rotation bytes `(255, 255, 255)`. -/
def rotPoint255 : PackedGaussian :=
  { position := [0, 0, 0, 0, 0, 0, 0, 0, 0], rotation := [255, 255, 255],
    scale := [0, 0, 0], color := [0, 0, 0], alpha := 0,
    sh_r := List.replicate 15 0, sh_g := List.replicate 15 0,
    sh_b := List.replicate 15 0 }

end Spz

deriving instance DecidableEq for Except

namespace Spz

/-! Helper lemmas. -/

lemma and_31 (x : Nat) : x &&& 31 = x % 32 := by
  have h := Nat.and_pow_two_sub_one_eq_mod x 5
  norm_num at h
  exact h

lemma and_1023 (x : Nat) : x &&& 1023 = x % 1024 := by
  have h := Nat.and_pow_two_sub_one_eq_mod x 10
  norm_num at h
  exact h

lemma and_1 (x : Nat) : x &&& 1 = x % 2 := Nat.and_one_is_mod x

lemma lor_shiftLeft_eq_add {a : Nat} (b n : Nat) (h : a < 2 ^ n) :
    a ||| (b <<< n) = 2 ^ n * b + a := by
  rw [Nat.lor_comm, Nat.shiftLeft_eq, Nat.mul_comm b (2 ^ n),
    ← Nat.mul_add_lt_is_or h b]

lemma assemble24 (b0 b1 b2 : Nat) (h0 : b0 < 256) (h1 : b1 < 256) :
    b0 ||| (b1 <<< 8) ||| (b2 <<< 16) = b0 + b1 * 256 + b2 * 65536 := by
  have e1 : b0 ||| (b1 <<< 8) = 2 ^ 8 * b1 + b0 :=
    lor_shiftLeft_eq_add b1 8 (by omega)
  have e2 : (2 ^ 8 * b1 + b0) ||| (b2 <<< 16) = 2 ^ 16 * b2 + (2 ^ 8 * b1 + b0) :=
    lor_shiftLeft_eq_add b2 16 (by omega)
  rw [e1, e2]
  omega

lemma signExtend24_eq {v : Nat} (hv : v < 2 ^ 24) :
    signExtend24 v = twosComplement24 v := by
  have hand : v &&& 0x800000 = (v.testBit 23).toNat * 2 ^ 23 := by
    have := Nat.and_two_pow v 23
    norm_num at this ⊢
    exact this
  have htb : v.testBit 23 = decide (v / 2 ^ 23 % 2 = 1) := Nat.testBit_to_div_mod
  unfold signExtend24 twosComplement24
  by_cases hbit : v / 2 ^ 23 % 2 = 1
  · have hge : 0x800000 ≤ v := by norm_num at hbit ⊢; omega
    have hne : v &&& 0x800000 ≠ 0 := by
      rw [hand, htb, hbit]
      norm_num
    rw [if_pos hne, if_neg (by omega)]
    have hor : v ||| 0xff000000 = v + 0xff000000 := by
      have h255 : (255 : Nat) <<< 24 = 0xff000000 := by decide
      have hl : v ||| (255 <<< 24) = 2 ^ 24 * 255 + v := lor_shiftLeft_eq_add 255 24 hv
      rw [h255] at hl
      omega
    rw [hor]
    unfold toI32
    rw [if_neg (by omega), Nat.mod_eq_of_lt (by omega)]
    push_cast
    omega
  · have hlt : v < 0x800000 := by
      norm_num at hbit ⊢
      omega
    have heq : v &&& 0x800000 = 0 := by
      rw [hand, htb]
      norm_num
      omega
    rw [if_neg (by simp [heq]), if_pos hlt]

lemma shl1_i32_of_le {fb : Nat} (h : fb % 32 ≤ 30) :
    shl1_i32 fb = 2 ^ (fb % 32) := by
  unfold shl1_i32 toI32
  rw [Nat.shiftLeft_eq, one_mul]
  have hlt : 2 ^ (fb % 32) < 2 ^ 31 :=
    Nat.pow_lt_pow_right (by norm_num) (by omega)
  rw [Nat.mod_eq_of_lt (by omega), if_pos (by omega)]
  push_cast
  ring

lemma shl1_i32_31 {fb : Nat} (h : fb % 32 = 31) :
    shl1_i32 fb = -(2 ^ 31) := by
  unfold shl1_i32 toI32
  rw [h, Nat.shiftLeft_eq, one_mul, Nat.mod_eq_of_lt (by norm_num),
    if_neg (by norm_num)]
  norm_num

lemma posScale_of_le {fb : Nat} (h : fb ≤ 30) :
    posScale fb = ((2 : ℚ) ^ fb)⁻¹ := by
  unfold posScale
  rw [shl1_i32_of_le (by omega), Nat.mod_eq_of_lt (by omega)]
  push_cast
  rw [one_div]

lemma posScale_31 : posScale 31 = -((2 : ℚ) ^ (31 : ℕ))⁻¹ := by
  unfold posScale
  rw [shl1_i32_31 (by norm_num)]
  push_cast
  norm_num

lemma f32sqrt_neg {t : ℚ} (h : t < 0) : f32sqrt t = F32.nan := by
  simp [f32sqrt, h]

lemma f32sqrt_zero : f32sqrt 0 = F32.fin 0 := by
  simp [f32sqrt]

lemma f32sqrt_pos {t : ℚ} (h : 0 < t) : f32sqrt t = F32.sqrtOf t := by
  simp [f32sqrt, not_lt.mpr h.le, h.ne']

lemma f32maxZero_f32sqrt (t : ℚ) : f32maxZero (f32sqrt t) = f32sqrt (max 0 t) := by
  rcases lt_trichotomy t 0 with h | h | h
  · rw [f32sqrt_neg h, max_eq_left h.le, f32sqrt_zero]
    rfl
  · subst h
    rw [max_self, f32sqrt_zero]
    show F32.fin (max 0 0) = F32.fin 0
    norm_num
  · rw [f32sqrt_pos h, max_eq_right h.le, f32sqrt_pos h]
    rfl

lemma nonneg_f32sqrt_max (t : ℚ) : F32.nonneg (f32sqrt (max 0 t)) := by
  rcases le_or_lt t 0 with h | h
  · rw [max_eq_left h, f32sqrt_zero]
    simp [F32.nonneg]
  · rw [max_eq_right h.le, f32sqrt_pos h]
    simp [F32.nonneg]

lemma rd_ok {n : Nat} {s : List Nat} (h : n ≤ s.length) :
    rd n s = .ok (s.take n, s.drop n) := by
  simp [rd, h]

lemma rd_err {n : Nat} {s : List Nat} (h : s.length < n) :
    rd n s = .error .ioTruncated := by
  rw [rd, if_neg (by omega)]

lemma rd_error_eq {n : Nat} {s : List Nat} {e : LoadError}
    (h : rd n s = .error e) : e = .ioTruncated := by
  unfold rd at h
  split at h
  · exact absurd h (by simp)
  · simp only [Except.error.injEq] at h
    exact h.symm

lemma half_to_f32_zero : half_to_f32 0 = F32.fin 0 := by
  simp only [half_to_f32, Nat.shiftRight_eq_div_pow, and_31, and_1023, and_1]
  norm_num

/-! Claim theorems. -/

/-- C1: the claim states that half-float positions are decoded from the
two consecutive little-endian bytes of each axis,
`half_to_f32(bytes[2i] | bytes[2i+1] << 8)`.  The code instead passes only
the low byte `position[i * 2]` to `half_to_f32`: for a point whose three
axes all store `0x3C00` (= 1.0) the code yields 0 on every axis, while
the claimed formula yields 1. -/
theorem c1_half_position_low_byte_only :
    (halfPointV1.unpack true 0).position = [F32.fin 0, F32.fin 0, F32.fin 0] ∧
    half_to_f32 (0 ||| (60 <<< 8)) = F32.fin 1 := by
  constructor
  · simp [PackedGaussian.unpack, halfPointV1, List.range_succ, half_to_f32_zero]
  · have h1 : (0 ||| (60 <<< 8) : Nat) = 15360 := by decide
    rw [h1]
    simp only [half_to_f32, Nat.shiftRight_eq_div_pow, and_31, and_1023, and_1]
    norm_num

/-- C2: the claim states that `at(i)`/`unpack(i)` succeed for every valid
index of a successfully loaded file of either version.  For the loaded
version-1 stream (one point) `at 0` fails: `copy_from_slice` copies the
6-byte half-float position slice into the 9-byte `position` array and
panics on the length mismatch (modelled as `none`).  For the loaded
version-2 stream the same extraction succeeds. -/
theorem c2_at_panics_on_half_float_files :
    (load_packed_gaussians_from_decompressed_buffer v1Stream).map
      (fun r => (r.1.num_points, r.1.atPoint 0)) = .ok (1, none) ∧
    (load_packed_gaussians_from_decompressed_buffer v2Stream).map
      (fun r => (r.1.atPoint 0).map (fun q => q.position)) =
      .ok (some [0, 16, 0, 0, 0, 0, 0, 0, 0]) := by
  constructor
  · decide
  · decide

/-- C5 counterexample: a stream whose header carries the unsupported SH
degree 4 loads successfully (with an empty SH buffer) instead of failing
with a format error. -/
theorem c5_counterexample_sh_degree_4_loads :
    (load_packed_gaussians_from_decompressed_buffer shDeg4Stream).map
      (fun r => (r.1.sh_degree, r.1.sh)) = .ok (4, []) := by
  decide

/-- C5 amended: for an SH degree outside {0,1,2,3} the code does not fail;
`dim_for_degree` silently degrades the dimension to 0 (printing only a
diagnostic) and the load succeeds with an empty SH buffer. -/
theorem c5_sh_degree_silently_degrades (d : Nat)
    (h0 : d ≠ 0) (h1 : d ≠ 1) (h2 : d ≠ 2) (h3 : d ≠ 3) :
    dim_for_degree d = 0 ∧
    (load_packed_gaussians_from_decompressed_buffer shDeg4Stream).map
      (fun r => r.1.sh) = .ok [] := by
  constructor
  · rcases d with _ | _ | _ | _ | n
    · exact absurd rfl h0
    · exact absurd rfl h1
    · exact absurd rfl h2
    · exact absurd rfl h3
    · rfl
  · decide

/-- C5 witness: the amended statement applied at degree 4. -/
theorem c5_sh_degree_witness :
    dim_for_degree 4 = 0 ∧
    (load_packed_gaussians_from_decompressed_buffer shDeg4Stream).map
      (fun r => r.1.sh) = .ok [] :=
  c5_sh_degree_silently_degrades 4 (by decide) (by decide) (by decide) (by decide)

/-- C6: the rotation is decoded as `x,y,z = byte/127.5 - 1` with
`w = sqrt(max(0, 1 - (x^2+y^2+z^2)))` stored first (`[w, x, y, z]`); for
rotation bytes (255,255,255) the reconstruction yields exactly `w = 0`
(the NaN produced by `sqrt` of a negative argument is absorbed by Rust's
NaN-ignoring `max`), and `w` is never negative. -/
theorem c6_quaternion_reconstruction (p : PackedGaussian) (u : Bool)
    (fb b0 b1 b2 : Nat) (hr : p.rotation = [b0, b1, b2]) :
    (p.unpack u fb).rotation =
      f32sqrt (max 0 (1 - (((b0 : ℚ) / 127.5 - 1) ^ 2 + ((b1 : ℚ) / 127.5 - 1) ^ 2
          + ((b2 : ℚ) / 127.5 - 1) ^ 2)))
        :: [F32.fin ((b0 : ℚ) / 127.5 - 1), F32.fin ((b1 : ℚ) / 127.5 - 1),
            F32.fin ((b2 : ℚ) / 127.5 - 1)] ∧
    (b0 = 255 → b1 = 255 → b2 = 255 →
      (p.unpack u fb).rotation.getD 0 F32.nan = F32.fin 0) ∧
    F32.nonneg ((p.unpack u fb).rotation.getD 0 F32.nan) := by
  have hrot : (p.unpack u fb).rotation =
      f32maxZero (f32sqrt (1 - (((b0 : ℚ) / 127.5 - 1) * ((b0 : ℚ) / 127.5 - 1)
          + (((b1 : ℚ) / 127.5 - 1) * ((b1 : ℚ) / 127.5 - 1)
            + (((b2 : ℚ) / 127.5 - 1) * ((b2 : ℚ) / 127.5 - 1) + 0)))))
        :: [F32.fin ((b0 : ℚ) / 127.5 - 1), F32.fin ((b1 : ℚ) / 127.5 - 1),
            F32.fin ((b2 : ℚ) / 127.5 - 1)] := by
    simp [PackedGaussian.unpack, hr]
  refine ⟨?_, ?_, ?_⟩
  · rw [hrot, f32maxZero_f32sqrt]
    congr 2
    ring_nf
  · intro e0 e1 e2
    subst e0
    subst e1
    subst e2
    rw [hrot]
    simp only [List.getD_cons_zero]
    norm_num
    rw [f32sqrt_neg (by norm_num)]
    rfl
  · rw [hrot]
    simp only [List.getD_cons_zero]
    rw [f32maxZero_f32sqrt]
    exact nonneg_f32sqrt_max _

/-- C6 witness: the reconstruction at rotation bytes (255,255,255). -/
theorem c6_quaternion_witness :
    (rotPoint255.unpack false 0).rotation.getD 0 F32.nan = F32.fin 0 :=
  (c6_quaternion_reconstruction rotPoint255 false 0 255 255 255 rfl).2.1 rfl rfl rfl

/-- C7 counterexample: at `fractional_bits = 31` the claimed formula
(multiply the sign-extended integer by `2^-fractional_bits`) fails: the
code's scale `1.0 / (1 << 31)` is negative, so the axis storing 4096
decodes to `-4096/2^31`, not `4096/2^31`. -/
theorem c7_counterexample_fb31 :
    (fixedPoint4096.unpack false 31).position.getD 0 F32.nan ≠
      F32.fin (fixedAxisSpec 0 16 0 31) := by
  have hv : (0 ||| (16 <<< 8) ||| (0 <<< 16) : Nat) = 4096 := by decide
  have hse : signExtend24 4096 = (4096 : ℤ) := by decide
  have hL : (fixedPoint4096.unpack false 31).position.getD 0 F32.nan
      = F32.fin ((4096 : ℚ) * posScale 31) := by
    simp [PackedGaussian.unpack, fixedPoint4096, List.range_succ, hv, hse]
  rw [hL, posScale_31]
  intro hEq
  simp only [F32.fin.injEq, fixedAxisSpec, twosComplement24] at hEq
  norm_num at hEq

/-- C7 amended: for `fractional_bits ≤ 30` every fixed-point axis is
decoded by assembling its 3 bytes little-endian, reading them as a 24-bit
two's-complement integer, and multiplying by `2^-fractional_bits`. -/
theorem c7_fixed_point_positions (p : PackedGaussian)
    (fb b0 b1 b2 b3 b4 b5 b6 b7 b8 : Nat) (hfb : fb ≤ 30)
    (hp : p.position = [b0, b1, b2, b3, b4, b5, b6, b7, b8])
    (hb : ∀ x ∈ p.position, x < 256) :
    (p.unpack false fb).position =
      [F32.fin (fixedAxisSpec b0 b1 b2 fb), F32.fin (fixedAxisSpec b3 b4 b5 fb),
       F32.fin (fixedAxisSpec b6 b7 b8 fb)] := by
  rw [hp] at hb
  have g0 : b0 < 256 := hb b0 (by simp)
  have g1 : b1 < 256 := hb b1 (by simp)
  have g2 : b2 < 256 := hb b2 (by simp)
  have g3 : b3 < 256 := hb b3 (by simp)
  have g4 : b4 < 256 := hb b4 (by simp)
  have g5 : b5 < 256 := hb b5 (by simp)
  have g6 : b6 < 256 := hb b6 (by simp)
  have g7 : b7 < 256 := hb b7 (by simp)
  have g8 : b8 < 256 := hb b8 (by simp)
  have e1 := assemble24 b0 b1 b2 g0 g1
  have e2 := assemble24 b3 b4 b5 g3 g4
  have e3 := assemble24 b6 b7 b8 g6 g7
  have s1 : signExtend24 (b0 + b1 * 256 + b2 * 65536) =
    twosComplement24 (b0 + b1 * 256 + b2 * 65536) := signExtend24_eq (by omega)
  have s2 : signExtend24 (b3 + b4 * 256 + b5 * 65536) =
    twosComplement24 (b3 + b4 * 256 + b5 * 65536) := signExtend24_eq (by omega)
  have s3 : signExtend24 (b6 + b7 * 256 + b8 * 65536) =
    twosComplement24 (b6 + b7 * 256 + b8 * 65536) := signExtend24_eq (by omega)
  simp [PackedGaussian.unpack, hp, List.range_succ, e1, e2, e3, s1, s2, s3,
    posScale_of_le hfb, fixedAxisSpec]

/-- C7 witness: the spec's end-to-end example, axis value 4096 with
`fractional_bits = 12`, decodes to exactly 1. -/
theorem c7_fixed_point_witness :
    (fixedPoint4096.unpack false 12).position =
      [F32.fin 1, F32.fin 0, F32.fin 0] := by
  have h := c7_fixed_point_positions fixedPoint4096 12 0 16 0 0 0 0 0 0 0
    (by norm_num) rfl (by decide)
  rw [h]
  norm_num [fixedAxisSpec, twosComplement24]

/-- C8: the half-float codec decodes the singular values of the spec
(`0x0000 → 0`, `0x8000 → -0.0 = 0`, `0x3C00 → 1`, `0x7C00 → +inf`,
`0xFC00 → -inf`, `0x7E00 → NaN`, `0x0001 → 2^-24`), and in general:
exponent field 0 gives `sign * 2^-14 * (mantissa/1024)`, exponent 31 with
nonzero mantissa gives NaN with no sign applied, and any other input
gives `sign * 2^(exponent-15) * (1 + mantissa/1024)`. -/
theorem c8_half_to_f32_codec :
    half_to_f32 0x0000 = F32.fin 0 ∧
    half_to_f32 0x8000 = F32.fin 0 ∧
    half_to_f32 0x3C00 = F32.fin 1 ∧
    half_to_f32 0x7C00 = F32.posInf ∧
    half_to_f32 0xFC00 = F32.negInf ∧
    half_to_f32 0x7E00 = F32.nan ∧
    half_to_f32 0x0001 = F32.fin (((2 : ℚ) ^ (24 : ℕ))⁻¹) ∧
    (∀ h : Nat, (h >>> 10) &&& 0x1f = 0 →
      half_to_f32 h = F32.fin ((if (h >>> 15) &&& 0x1 = 1 then (-1 : ℚ) else 1) *
        ((2 : ℚ) ^ (14 : ℕ))⁻¹ * (((h &&& 0x3ff : Nat) : ℚ) / 1024))) ∧
    (∀ h : Nat, (h >>> 10) &&& 0x1f = 31 → h &&& 0x3ff ≠ 0 →
      half_to_f32 h = F32.nan) ∧
    (∀ h : Nat, (h >>> 10) &&& 0x1f ≠ 0 → (h >>> 10) &&& 0x1f ≠ 31 →
      half_to_f32 h = F32.fin ((if (h >>> 15) &&& 0x1 = 1 then (-1 : ℚ) else 1) *
        (2 : ℚ) ^ ((((h >>> 10) &&& 0x1f : Nat) : ℤ) - 15) *
        (1 + ((h &&& 0x3ff : Nat) : ℚ) / 1024))) := by
  refine ⟨?_, ?_, ?_, ?_, ?_, ?_, ?_, ?_, ?_, ?_⟩
  · exact half_to_f32_zero
  · simp only [half_to_f32, Nat.shiftRight_eq_div_pow, and_31, and_1023, and_1]
    norm_num
  · simp only [half_to_f32, Nat.shiftRight_eq_div_pow, and_31, and_1023, and_1]
    norm_num
  · simp only [half_to_f32, Nat.shiftRight_eq_div_pow, and_31, and_1023, and_1]
    norm_num
  · simp only [half_to_f32, Nat.shiftRight_eq_div_pow, and_31, and_1023, and_1]
    norm_num
  · simp only [half_to_f32, Nat.shiftRight_eq_div_pow, and_31, and_1023, and_1]
    norm_num
  · simp only [half_to_f32, Nat.shiftRight_eq_div_pow, and_31, and_1023, and_1]
    norm_num
  · intro h he
    simp only [half_to_f32]
    rw [if_pos he]
    have h14 : (2 : ℚ) ^ (-14 : ℤ) = ((2 : ℚ) ^ (14 : ℕ))⁻¹ := by norm_num
    rw [h14, mul_div_assoc]
  · intro h he hm
    simp only [half_to_f32]
    rw [if_neg (by simp [he]), if_pos he, if_neg hm]
  · intro h he0 he31
    simp only [half_to_f32]
    rw [if_neg he0, if_neg he31]

/-- C8 witness: the general formulas applied at the subnormal input 2 and
the normal input 0xC000 (= -2). -/
theorem c8_half_to_f32_witness :
    half_to_f32 2 = F32.fin (1 / 8388608) ∧ half_to_f32 0xC000 = F32.fin (-2) := by
  obtain ⟨-, -, -, -, -, -, -, hsub, -, hnorm⟩ := c8_half_to_f32_codec
  constructor
  · rw [hsub 2 (by decide)]
    norm_num [(by decide : ((2 : Nat) >>> 15) &&& 1 = 0),
      (by decide : ((2 : Nat) &&& 1023) = 2)]
  · rw [hnorm 0xC000 (by decide) (by decide)]
    norm_num [(by decide : ((0xC000 : Nat) >>> 15) &&& 1 = 1),
      (by decide : ((0xC000 : Nat) >>> 10) &&& 31 = 16),
      (by decide : ((0xC000 : Nat) &&& 1023) = 0)]

/-- C9: the scalar dequantizers compute `scale(b) = b/16 - 10`,
`sh(b) = (b-128)/128`, `color(b) = (b/255 - 0.5)/0.15` with the divisor
exactly 0.15 = 3/20, and `alpha(b) = ln((b/255)/(1 - b/255))`, with the
boundary bytes propagated as infinities: `alpha(255) = +inf`,
`alpha(0) = -inf`. -/
theorem c9_scalar_dequantizers :
    (∀ b : Nat, unquantize_scale b = (b : ℚ) / 16 - 10) ∧
    (∀ b : Nat, unquantize_sh b = ((b : ℚ) - 128) / 128) ∧
    COLOR_SCALE = 3 / 20 ∧
    (∀ (p : PackedGaussian) (u : Bool) (fb c0 c1 c2 : Nat), p.color = [c0, c1, c2] →
      (p.unpack u fb).color =
        [((c0 : ℚ) / 255 - 0.5) / 0.15, ((c1 : ℚ) / 255 - 0.5) / 0.15,
         ((c2 : ℚ) / 255 - 0.5) / 0.15]) ∧
    (∀ b : Nat, 0 < b → b < 255 →
      unquantize_alpha b = F32.logOf (((b : ℚ) / 255) / (1 - (b : ℚ) / 255))) ∧
    unquantize_alpha 255 = F32.posInf ∧
    unquantize_alpha 0 = F32.negInf := by
  refine ⟨fun b => rfl, fun b => rfl, by norm_num [COLOR_SCALE], ?_, ?_, ?_, ?_⟩
  · intro p u fb c0 c1 c2 hc
    simp [PackedGaussian.unpack, hc, List.range_succ, COLOR_SCALE]
  · intro b hb0 hb255
    have hx0 : (0 : ℚ) < (b : ℚ) / 255 := by positivity
    have hx1 : (b : ℚ) / 255 < 1 := by
      rw [div_lt_one (by norm_num)]
      exact_mod_cast hb255
    unfold unquantize_alpha inv_sigmoid
    have hpos : (0 : ℚ) < 1 - (b : ℚ) / 255 := by linarith
    rw [if_neg hpos.ne']
    have hr : (0 : ℚ) < ((b : ℚ) / 255) / (1 - (b : ℚ) / 255) := div_pos hx0 hpos
    rw [if_neg (not_lt.mpr hr.le), if_neg hr.ne']
  · norm_num [unquantize_alpha, inv_sigmoid]
  · norm_num [unquantize_alpha, inv_sigmoid]

/-- C9 witness: the alpha formula at byte 128 and the scale formula at
byte 160. -/
theorem c9_scalar_witness :
    unquantize_alpha 128 = F32.logOf (128 / 127) ∧ unquantize_scale 160 = 0 := by
  obtain ⟨hs, -, -, -, ha, -, -⟩ := c9_scalar_dequantizers
  constructor
  · rw [ha 128 (by norm_num) (by norm_num)]
    norm_num
  · rw [hs 160]
    norm_num

/-- C10: the loader accepts any `fractional_bits` byte without
validation (witnessed by a successful load with `fractional_bits = 255`);
the fixed-point scale `1.0 / (1 << fractional_bits)` equals
`2^-fractional_bits` exactly when `fractional_bits ≤ 30`;
`fractional_bits = 31` produces the negative scale `-2^-31`; and for
every `fractional_bits ≥ 31` the scale differs from `2^-fractional_bits`
(the `≥ 32` cases are modelled with release-mode masked-shift semantics;
in debug builds the shift overflow panics instead). -/
theorem c10_fractional_bits_unchecked :
    (∀ fb : Nat, fb ≤ 30 → posScale fb = ((2 : ℚ) ^ fb)⁻¹) ∧
    posScale 31 < 0 ∧
    (∀ fb : Nat, 31 ≤ fb → posScale fb ≠ ((2 : ℚ) ^ fb)⁻¹) ∧
    load_packed_gaussians_from_decompressed_buffer fb255Stream =
      .ok ({ num_points := 0, sh_degree := 0, fractional_bits := 255,
             antialiased := false, positions := [], scales := [],
             rotations := [], alphas := [], colors := [], sh := [] }, []) := by
  refine ⟨fun fb h => posScale_of_le h, ?_, ?_, by decide⟩
  · rw [posScale_31]
    norm_num
  · intro fb hfb hEq
    by_cases hk : fb % 32 = 31
    · unfold posScale at hEq
      rw [shl1_i32_31 hk] at hEq
      have hpos : (0 : ℚ) < ((2 : ℚ) ^ fb)⁻¹ := by positivity
      rw [← hEq] at hpos
      push_cast at hpos
      norm_num at hpos
    · have hk30 : fb % 32 ≤ 30 := by omega
      unfold posScale at hEq
      rw [shl1_i32_of_le hk30] at hEq
      push_cast at hEq
      rw [one_div] at hEq
      have h2 := inv_injective hEq
      have hnat : (2 : ℕ) ^ (fb % 32) = 2 ^ fb := by exact_mod_cast h2
      have := Nat.pow_right_injective (le_refl 2) hnat
      omega

/-- C10 witness: the scale formula at 12 and its failure at 33. -/
theorem c10_fractional_bits_witness :
    posScale 12 = ((2 : ℚ) ^ (12 : ℕ))⁻¹ ∧ posScale 33 ≠ ((2 : ℚ) ^ (33 : ℕ))⁻¹ :=
  ⟨c10_fractional_bits_unchecked.1 12 (by norm_num),
   c10_fractional_bits_unchecked.2.2.1 33 (by norm_num)⟩

/-! Loader lemmas for C3 and C4. -/

lemma load_ok_of_valid (s : List Nat)
    (hm : (parseHeader (s.take 16)).magic = 0x5053474e)
    (hv1 : 1 ≤ (parseHeader (s.take 16)).version)
    (hv2 : (parseHeader (s.take 16)).version ≤ 2)
    (hlen : 16 + totalBodyBytes (parseHeader (s.take 16)) ≤ s.length) :
    load_packed_gaussians_from_decompressed_buffer s =
      .ok (gaussiansOf (parseHeader (s.take 16)) s,
           s.drop (16 + totalBodyBytes (parseHeader (s.take 16)))) := by
  have h16 : 16 ≤ s.length := by
    unfold totalBodyBytes at hlen
    omega
  have hP : (parseHeader (s.take 16)).num_points * 3 *
      (if ((parseHeader (s.take 16)).version == 1 : Bool) then 2 else 3) =
      (parseHeader (s.take 16)).num_points * positionBytesPerPoint (parseHeader (s.take 16)) := by
    by_cases hv : (parseHeader (s.take 16)).version = 1
    · simp only [positionBytesPerPoint, hv, if_pos, beq_self_eq_true, if_true]
      ring
    · rw [if_neg (by simp [hv]), positionBytesPerPoint, if_neg hv]
      ring
  simp only [load_packed_gaussians_from_decompressed_buffer, gaussiansOf, sliceAt]
  rw [rd_ok h16]
  dsimp only
  rw [if_neg (by simp [hm, PackedGaussiansHeader.default]), if_neg (by omega)]
  rw [hP]
  unfold totalBodyBytes at hlen ⊢
  generalize hPB : (parseHeader (s.take 16)).num_points *
    positionBytesPerPoint (parseHeader (s.take 16)) = PB at hlen ⊢
  generalize hSH : (parseHeader (s.take 16)).num_points *
    dim_for_degree (parseHeader (s.take 16)).sh_degree * 3 = SH at hlen ⊢
  rw [rd_ok (by simp only [List.length_drop]; omega)]
  dsimp only
  rw [rd_ok (by simp only [List.length_drop]; omega)]
  dsimp only
  rw [rd_ok (by simp only [List.length_drop]; omega)]
  dsimp only
  rw [rd_ok (by simp only [List.length_drop]; omega)]
  dsimp only
  rw [rd_ok (by simp only [List.length_drop]; omega)]
  dsimp only
  rw [rd_ok (by simp only [List.length_drop]; omega)]
  dsimp only
  simp only [List.drop_drop]
  ring_nf

lemma load_trunc_of_short (s : List Nat)
    (hm : (parseHeader (s.take 16)).magic = 0x5053474e)
    (hv1 : 1 ≤ (parseHeader (s.take 16)).version)
    (hv2 : (parseHeader (s.take 16)).version ≤ 2)
    (hshort : s.length < 16 + totalBodyBytes (parseHeader (s.take 16))) :
    load_packed_gaussians_from_decompressed_buffer s = .error .ioTruncated := by
  by_cases h16 : s.length < 16
  · simp only [load_packed_gaussians_from_decompressed_buffer]
    rw [rd_err h16]
  push_neg at h16
  have hP : (parseHeader (s.take 16)).num_points * 3 *
      (if ((parseHeader (s.take 16)).version == 1 : Bool) then 2 else 3) =
      (parseHeader (s.take 16)).num_points * positionBytesPerPoint (parseHeader (s.take 16)) := by
    by_cases hv : (parseHeader (s.take 16)).version = 1
    · simp only [positionBytesPerPoint, hv, if_pos, beq_self_eq_true, if_true]
      ring
    · rw [if_neg (by simp [hv]), positionBytesPerPoint, if_neg hv]
      ring
  simp only [load_packed_gaussians_from_decompressed_buffer]
  rw [rd_ok h16]
  dsimp only
  rw [if_neg (by simp [hm, PackedGaussiansHeader.default]), if_neg (by omega)]
  rw [hP]
  unfold totalBodyBytes at hshort
  generalize hPB : (parseHeader (s.take 16)).num_points *
    positionBytesPerPoint (parseHeader (s.take 16)) = PB at hshort ⊢
  generalize hSH : (parseHeader (s.take 16)).num_points *
    dim_for_degree (parseHeader (s.take 16)).sh_degree * 3 = SH at hshort ⊢
  by_cases c1 : (s.drop 16).length < PB
  · rw [rd_err c1]
  push_neg at c1
  rw [rd_ok c1]
  dsimp only
  by_cases c2 : ((s.drop 16).drop PB).length < (parseHeader (s.take 16)).num_points
  · rw [rd_err c2]
  push_neg at c2
  rw [rd_ok c2]
  dsimp only
  by_cases c3 : (((s.drop 16).drop PB).drop (parseHeader (s.take 16)).num_points).length <
      (parseHeader (s.take 16)).num_points * 3
  · rw [rd_err c3]
  push_neg at c3
  rw [rd_ok c3]
  dsimp only
  by_cases c4 : ((((s.drop 16).drop PB).drop (parseHeader (s.take 16)).num_points).drop
      ((parseHeader (s.take 16)).num_points * 3)).length < (parseHeader (s.take 16)).num_points * 3
  · rw [rd_err c4]
  push_neg at c4
  rw [rd_ok c4]
  dsimp only
  by_cases c5 : (((((s.drop 16).drop PB).drop (parseHeader (s.take 16)).num_points).drop
      ((parseHeader (s.take 16)).num_points * 3)).drop
      ((parseHeader (s.take 16)).num_points * 3)).length < (parseHeader (s.take 16)).num_points * 3
  · rw [rd_err c5]
  push_neg at c5
  rw [rd_ok c5]
  dsimp only
  rw [rd_err (by simp only [List.length_drop] at hshort c1 c2 c3 c4 c5 ⊢; omega)]

lemma load_badMagic_of (s : List Nat) (h16 : 16 ≤ s.length)
    (hm : (parseHeader (s.take 16)).magic ≠ 0x5053474e) :
    load_packed_gaussians_from_decompressed_buffer s = .error .badMagic := by
  simp only [load_packed_gaussians_from_decompressed_buffer]
  rw [rd_ok h16]
  dsimp only
  rw [if_pos (by simpa [PackedGaussiansHeader.default] using hm)]

lemma load_unsupported_of (s : List Nat) (h16 : 16 ≤ s.length)
    (hm : (parseHeader (s.take 16)).magic = 0x5053474e)
    (hv : (parseHeader (s.take 16)).version < 1 ∨ 2 < (parseHeader (s.take 16)).version) :
    load_packed_gaussians_from_decompressed_buffer s = .error .unsupportedVersion := by
  simp only [load_packed_gaussians_from_decompressed_buffer]
  rw [rd_ok h16]
  dsimp only
  rw [if_neg (by simp [hm, PackedGaussiansHeader.default]), if_pos hv]

lemma load_error_elim (s : List Nat) (h16 : 16 ≤ s.length)
    (hm : (parseHeader (s.take 16)).magic = 0x5053474e)
    (hv1 : 1 ≤ (parseHeader (s.take 16)).version)
    (hv2 : (parseHeader (s.take 16)).version ≤ 2) :
    ∀ e, load_packed_gaussians_from_decompressed_buffer s = .error e →
      e = .ioTruncated := by
  intro e he
  simp only [load_packed_gaussians_from_decompressed_buffer] at he
  rw [rd_ok h16] at he
  dsimp only at he
  rw [if_neg (by simp [hm, PackedGaussiansHeader.default]), if_neg (by omega)] at he
  rcases hr1 : rd ((parseHeader (s.take 16)).num_points * 3 *
      (if ((parseHeader (s.take 16)).version == 1 : Bool) then 2 else 3)) (s.drop 16) with e1 | p1
  · rw [hr1] at he
    dsimp only at he
    simp only [Except.error.injEq] at he
    rw [← he]
    exact rd_error_eq hr1
  · obtain ⟨positions, s2⟩ := p1
    rw [hr1] at he
    dsimp only at he
    rcases hr2 : rd (parseHeader (s.take 16)).num_points s2 with e2 | p2
    · rw [hr2] at he
      dsimp only at he
      simp only [Except.error.injEq] at he
      rw [← he]
      exact rd_error_eq hr2
    · obtain ⟨alphas, s3⟩ := p2
      rw [hr2] at he
      dsimp only at he
      rcases hr3 : rd ((parseHeader (s.take 16)).num_points * 3) s3 with e3 | p3
      · rw [hr3] at he
        dsimp only at he
        simp only [Except.error.injEq] at he
        rw [← he]
        exact rd_error_eq hr3
      · obtain ⟨colors, s4⟩ := p3
        rw [hr3] at he
        dsimp only at he
        rcases hr4 : rd ((parseHeader (s.take 16)).num_points * 3) s4 with e4 | p4
        · rw [hr4] at he
          dsimp only at he
          simp only [Except.error.injEq] at he
          rw [← he]
          exact rd_error_eq hr4
        · obtain ⟨scales, s5⟩ := p4
          rw [hr4] at he
          dsimp only at he
          rcases hr5 : rd ((parseHeader (s.take 16)).num_points * 3) s5 with e5 | p5
          · rw [hr5] at he
            dsimp only at he
            simp only [Except.error.injEq] at he
            rw [← he]
            exact rd_error_eq hr5
          · obtain ⟨rotations, s6⟩ := p5
            rw [hr5] at he
            dsimp only at he
            rcases hr6 : rd ((parseHeader (s.take 16)).num_points *
                dim_for_degree (parseHeader (s.take 16)).sh_degree * 3) s6 with e6 | p6
            · rw [hr6] at he
              dsimp only at he
              simp only [Except.error.injEq] at he
              rw [← he]
              exact rd_error_eq hr6
            · obtain ⟨sh, s7⟩ := p6
              rw [hr6] at he
              dsimp only at he
              exact absurd he (by simp)

/-- C3: for a stream with a valid header, a successful load consumes
exactly 16 header bytes plus `totalBodyBytes` (positions, alphas, colors,
scales, rotations, SH in that fixed order), each buffer being the exact
slice of the stream at its sequential offset; a stream shorter than that
total makes the load fail with the truncated-stream error instead of
zero-filling any buffer. -/
theorem c3_buffer_layout (s : List Nat)
    (hm : (parseHeader (s.take 16)).magic = 0x5053474e)
    (hv1 : 1 ≤ (parseHeader (s.take 16)).version)
    (hv2 : (parseHeader (s.take 16)).version ≤ 2) :
    (16 + totalBodyBytes (parseHeader (s.take 16)) ≤ s.length →
      load_packed_gaussians_from_decompressed_buffer s =
        .ok (gaussiansOf (parseHeader (s.take 16)) s,
             s.drop (16 + totalBodyBytes (parseHeader (s.take 16))))) ∧
    (s.length < 16 + totalBodyBytes (parseHeader (s.take 16)) →
      load_packed_gaussians_from_decompressed_buffer s = .error .ioTruncated) :=
  ⟨fun h => load_ok_of_valid s hm hv1 hv2 h,
   fun h => load_trunc_of_short s hm hv1 hv2 h⟩

/-- C3 witness: the 35-byte version-2 stream (one point, SH degree 0)
loads exactly, with nothing left over. -/
theorem c3_buffer_layout_witness :
    load_packed_gaussians_from_decompressed_buffer v2Stream =
      .ok (gaussiansOf (parseHeader (v2Stream.take 16)) v2Stream,
           v2Stream.drop (16 + totalBodyBytes (parseHeader (v2Stream.take 16)))) :=
  (c3_buffer_layout v2Stream (by decide) (by decide) (by decide)).1 (by decide)

/-- C4: once the 16 header bytes are present, loading fails with the
bad-magic error exactly when the magic field differs from 0x5053474e,
fails with the unsupported-version error exactly when the magic matches
but the version is outside {1,2}, and when both are valid the header is
accepted: the only possible error left is a truncated stream. -/
theorem c4_header_validation (s : List Nat) (h16 : 16 ≤ s.length) :
    (load_packed_gaussians_from_decompressed_buffer s = .error .badMagic ↔
      (parseHeader (s.take 16)).magic ≠ 0x5053474e) ∧
    (load_packed_gaussians_from_decompressed_buffer s = .error .unsupportedVersion ↔
      ((parseHeader (s.take 16)).magic = 0x5053474e ∧
        ((parseHeader (s.take 16)).version < 1 ∨ 2 < (parseHeader (s.take 16)).version))) ∧
    ((parseHeader (s.take 16)).magic = 0x5053474e →
      1 ≤ (parseHeader (s.take 16)).version → (parseHeader (s.take 16)).version ≤ 2 →
      ∀ e, load_packed_gaussians_from_decompressed_buffer s = .error e →
        e = .ioTruncated) := by
  by_cases hm : (parseHeader (s.take 16)).magic = 0x5053474e
  · by_cases hv : (parseHeader (s.take 16)).version < 1 ∨ 2 < (parseHeader (s.take 16)).version
    · have hL := load_unsupported_of s h16 hm hv
      exact ⟨by simp [hL, hm], by simp [hL, hm]; omega,
        fun _ h1 h2 => absurd hv (by omega)⟩
    · have hv1 : 1 ≤ (parseHeader (s.take 16)).version := by omega
      have hv2 : (parseHeader (s.take 16)).version ≤ 2 := by omega
      have hElim := load_error_elim s h16 hm hv1 hv2
      refine ⟨⟨fun h => absurd (hElim _ h) (by simp), fun hne => absurd hm hne⟩,
        ⟨fun h => absurd (hElim _ h) (by simp), ?_⟩, fun _ _ _ => hElim⟩
      rintro ⟨-, hv'⟩
      exact absurd hv' (by omega)
  · have hL := load_badMagic_of s h16 hm
    exact ⟨by simp [hL, hm], by simp [hL, hm], fun hm' => absurd hm' hm⟩

/-- C4 witness: the all-zero 16-byte stream is rejected with the
bad-magic error. -/
theorem c4_header_validation_witness :
    load_packed_gaussians_from_decompressed_buffer zeroStream = .error .badMagic :=
  (c4_header_validation zeroStream (by decide)).1.mpr (by decide)

end Spz
